import Mathlib

/-!
Verification of the set-import pipeline (`src/import/src/set-import.ts`).

The definitions below are a shallow embedding of the source file: pure
functions become Lean functions, the in-place mutation of `PokemonSet`
records becomes explicit state passing, the opaque collaborators
(reference database, legality engine, fetched data) become parameters
collected in an `Env` structure, and the JavaScript runtime error that
an `undefined` property access would raise becomes an `Except.error`.
-/

set_option maxRecDepth 4000

/-- JavaScript substring test `s.includes(pat)` (also used for the
substring-alternation regex tests in the source, which carry no `i` flag). -/
def includesSubstr (s pat : String) : Bool :=
  decide (pat.toList <:+: s.toList)

/-- Character-list splitter underlying the JavaScript `split` calls of the
source (single-character separators only); written over `List Char` so the
kernel can evaluate it. -/
def splitListOn (sep : Char) : List Char → List (List Char)
  | [] => [[]]
  | c :: rest =>
    let r := splitListOn sep rest
    if c = sep then [] :: r
    else
      match r with
      | h :: t => (c :: h) :: t
      | [] => [[c]]

/-- JavaScript `s.split(sep)` for a one-character separator. -/
def strSplit (s : String) (sep : Char) : List String :=
  (splitListOn sep s.toList).map (fun l => ⟨l⟩)

/-- JavaScript `s.startsWith(pat)`. -/
def strStartsWith (s pat : String) : Bool :=
  decide (pat.toList <+: s.toList)

/-- JavaScript `s.slice(n)` (ASCII data, so code units and characters
coincide). -/
def strDrop (s : String) (n : Nat) : String :=
  ⟨s.toList.drop n⟩

/-- JavaScript `Number(s)` restricted to the non-negative integral strings
this program feeds it, as an `Option`; `""` and non-numeric strings give
`none` (both are falsy — `0` and `NaN` — at every use site). -/
def strToNatOpt (s : String) : Option Nat :=
  let l := s.toList
  if l ≠ [] ∧ l.all Char.isDigit then
    some (l.foldl (fun n c => n * 10 + (c.toNat - 48)) 0)
  else none

/-- Lower-casing used only to state the spec's claimed case-insensitive
match. -/
def strLower (s : String) : String :=
  ⟨s.toList.map Char.toLower⟩

/-- Truthiness of a JavaScript `string | undefined` value: `undefined` and
the empty string are falsy. -/
def jsTruthy (o : Option String) : Bool :=
  match o with
  | none => false
  | some s => s ≠ ""

/-- Full six-stat table (`StatsTable` in the source), field order hp, atk,
def, spa, spd, spe as in Pokémon Showdown. -/
structure StatsTable where
  hp : Nat
  atk : Nat
  «def» : Nat
  spa : Nat
  spd : Nat
  spe : Nat
deriving DecidableEq

/-- Partial six-stat table (`Partial<StatsTable>` in the source): absent
keys are `none`. -/
structure PartialStatsTable where
  hp : Option Nat := none
  atk : Option Nat := none
  «def» : Option Nat := none
  spa : Option Nat := none
  spd : Option Nat := none
  spe : Option Nat := none
deriving DecidableEq

/-- Partial calc-side stat table (`Partial<CalcStatsTable>` in the source),
keyed by the downstream tool's two-letter stat abbreviations. -/
structure PartialCalcStatsTable where
  hp : Option Nat := none
  «at» : Option Nat := none
  df : Option Nat := none
  sa : Option Nat := none
  sd : Option Nat := none
  sp : Option Nat := none
deriving DecidableEq

/-- Modelled from the spec: `TeamValidator.fillStats` (external collaborator
from `@pkmn/sim`, not part of this repository's source) fills every missing
per-stat value of a partial table with the given fill value. -/
def fillStatsPartial (s : PartialStatsTable) (fill : Nat) : StatsTable :=
  { hp := s.hp.getD fill
    atk := s.atk.getD fill
    «def» := s.«def».getD fill
    spa := s.spa.getD fill
    spd := s.spd.getD fill
    spe := s.spe.getD fill }

/-- Modelled from the spec: `TeamValidator.fillStats(s, fill)` where `s` may
be `null` (the source passes `... ?? null`); `null` behaves as the empty
partial table. -/
def fillStats (s : Option PartialStatsTable) (fill : Nat) : StatsTable :=
  match s with
  | some t => fillStatsPartial t fill
  | none => fillStatsPartial {} fill

/-- View of a full table as a partial table with every key present (a full
JavaScript `StatsTable` object iterated by `for ... in`). -/
def toPartial (s : StatsTable) : PartialStatsTable :=
  { hp := some s.hp, atk := some s.atk, «def» := some s.«def»
    spa := some s.spa, spd := some s.spd, spe := some s.spe }

/-- One iteration of the `for (stat in stats)` loop of `toCalcStatsTable`:
an absent key stays absent, a value equal to `ignoreVal` is skipped
(`continue`), any other value is kept. -/
def condenseEntry (o : Option Nat) (ignoreVal : Nat) : Option Nat :=
  match o with
  | some v => if v = ignoreVal then none else some v
  | none => none

/-- `toCalcStatsTable` from the source: keep exactly the present entries
whose value differs from `ignoreVal`, renaming the keys to the two-letter
calc abbreviations. -/
def toCalcStatsTable (stats : PartialStatsTable) (ignoreVal : Nat) : PartialCalcStatsTable :=
  { hp := condenseEntry stats.hp ignoreVal
    «at» := condenseEntry stats.atk ignoreVal
    df := condenseEntry stats.«def» ignoreVal
    sa := condenseEntry stats.spa ignoreVal
    sd := condenseEntry stats.spd ignoreVal
    sp := condenseEntry stats.spe ignoreVal }

/-- Modelled from the spec: re-expansion of a condensed calc stat table,
filling every missing two-letter entry with the fill value and mapping the
keys back to the canonical six-stat names (the inverse direction of the
Stat-Table Normalizer round trip in the spec; no such function exists in
the source). -/
def fromCalcStatsTable (c : PartialCalcStatsTable) (fill : Nat) : StatsTable :=
  { hp := c.hp.getD fill
    atk := c.«at».getD fill
    «def» := c.df.getD fill
    spa := c.sa.getD fill
    spd := c.sd.getD fill
    spe := c.sp.getD fill }

/-- `getUsageThreshold` from the source; JavaScript `Infinity` is modelled
as `⊤` in `WithTop ℚ`. -/
def getUsageThreshold (formatID : String) (count : Nat) : WithTop ℚ :=
  if count < 100 then ⊤
  else if count < 400 then (mkRat 5 100 : ℚ)
  else if includesSubstr formatID ("uber") || includesSubstr formatID ("anythinggoes") ||
      includesSubstr formatID ("doublesou") then (mkRat 3 100 : ℚ)
  else (mkRat 1 100 : ℚ)

/-- Modelled from the spec: the claimed case-insensitive reading of the
"lower playerbase quality" pattern match (the spec's words; the source's
regex has no `i` flag). -/
def specLowerQualityMatch (formatID : String) : Bool :=
  includesSubstr (strLower formatID) ("uber") ||
    includesSubstr (strLower formatID) ("anythinggoes") ||
    includesSubstr (strLower formatID) ("doublesou")

/-- `expectedHP` from the source: fill missing entries to 31, halve
atk/def/spe/spa into DV components and combine their low bits. -/
def expectedHP (ivs : PartialStatsTable) : Nat :=
  let ivs := fillStatsPartial ivs 31
  let atkDV := ivs.atk / 2
  let defDV := ivs.«def» / 2
  let speDV := ivs.spe / 2
  let spcDV := ivs.spa / 2
  2 * ((atkDV % 2) * 8 + (defDV % 2) * 4 + (speDV % 2) * 2 + (spcDV % 2))

/-- `getLevel` from the source. -/
def getLevel (formatID : String) : Nat :=
  if includesSubstr formatID ("lc") then 5
  else if includesSubstr formatID ("vgc") || includesSubstr formatID ("battlestadium") then 50
  else 100

example : expectedHP { atk := some 30, «def» := some 30, spe := some 30, spa := some 30 } = 30 := by decide

example : getUsageThreshold ("gen9ubers") 10000 = (mkRat 3 100 : ℚ) := by decide

example : getUsageThreshold ("gen9UBER") 10000 = (mkRat 1 100 : ℚ) := by decide

example : ((mkRat 999 10 : ℚ) : WithTop ℚ) < ⊤ := by decide

example : fromCalcStatsTable (toCalcStatsTable (toPartial ⟨1, 2, 3, 4, 5, 6⟩) 3) 3 = ⟨1, 2, 3, 4, 5, 6⟩ := by decide

/-- Result type of the overloaded `top` selector: JavaScript `undefined`,
a single key, or an array of keys. -/
inductive TopResult where
  | undef
  | one (s : String)
  | many (l : List String)
deriving DecidableEq

/-- Weight lookup `weighted[k]` in a JavaScript object modelled as an
insertion-ordered association list. -/
def lookupWeight (weighted : List (String × ℚ)) (k : String) : ℚ :=
  ((weighted.find? (fun kv => kv.1 == k)).map (fun kv => kv.2)).getD 0

/-- JavaScript falsiness of the loop variable `max : string | undefined` in
`top`: both `undefined` and the empty-string key are falsy. -/
def jsFalsyOpt (o : Option String) : Bool :=
  match o with
  | none => true
  | some s => s == ""

/-- One step of the linear `n === 1` scan in `top`:
`if (!max || weighted[max] < weighted[key]) max = key`. -/
def top1step (weighted : List (String × ℚ)) (max : Option String) (kv : String × ℚ) :
    Option String :=
  if jsFalsyOpt max || decide (lookupWeight weighted (max.getD "") < lookupWeight weighted kv.1)
  then some kv.1 else max

/-- The `n === 1` path of `top` from the source. -/
def top1 (weighted : List (String × ℚ)) : Option String :=
  weighted.foldl (top1step weighted) none

/-- `Object.entries(weighted).sort((a, b) => b[1] - a[1])`: a stable sort by
descending weight. -/
def sortDescWeight (weighted : List (String × ℚ)) : List (String × ℚ) :=
  List.insertionSort (fun a b => b.2 ≤ a.2) weighted

/-- The general `n` path of `top` from the source: sort by descending
weight, take `n`, keep the keys. -/
def topN (weighted : List (String × ℚ)) (n : Nat) : List String :=
  ((sortDescWeight weighted).take n).map (fun kv => kv.1)

/-- The overloaded `top(weighted, n = 1)` from the source. -/
def top (weighted : List (String × ℚ)) (n : Nat := 1) : TopResult :=
  if n = 0 then TopResult.undef
  else if n = 1 then
    match top1 weighted with
    | none => TopResult.undef
    | some s => TopResult.one s
  else TopResult.many (topN weighted n)

/-- Result of `fromSpread`. -/
structure SpreadResult where
  nature : String
  evs : PartialStatsTable
deriving DecidableEq

/-- Helper for `fromSpread`: write an EV into the stat slot given by its
position in `Dex.stats.ids()` (order hp, atk, def, spa, spd, spe); an
out-of-range index is dropped. -/
def setStatByIdx (t : PartialStatsTable) (i : Nat) (v : Nat) : PartialStatsTable :=
  match i with
  | 0 => { t with hp := some v }
  | 1 => { t with atk := some v }
  | 2 => { t with «def» := some v }
  | 3 => { t with spa := some v }
  | 4 => { t with spd := some v }
  | 5 => { t with spe := some v }
  | _ => t

/-- `fromSpread` from the source: split `"nature:h/a/d/sa/sd/sp"`; a zero or
non-numeric EV entry is omitted, not stored as zero. -/
def fromSpread (spread : String) : SpreadResult :=
  let parts := strSplit spread ':'
  let nature := parts.getD 0 ""
  let revs := parts.getD 1 ""
  let evs := ((strSplit revs '/').enum).foldl
    (fun evs p =>
      let ev := (strToNatOpt p.2).getD 0
      if ev ≠ 0 then setStatByIdx evs p.1 ev else evs) {}
  { nature := nature, evs := evs }

/-- List-or-scalar convenience union used by the curated-set input fields. -/
inductive LoS (α : Type) where
  | single (a : α)
  | alts (l : List α)
deriving DecidableEq

/-- `first` from the source: a scalar itself, or the head of a list of
alternatives (`undefined` on an empty list, hence `Option`). -/
def first {α : Type} : LoS α → Option α
  | .single a => some a
  | .alts l => l.head?

/-- Canonical record shape (`PokemonSet` of `@pkmn/data`), restricted to the
fields this program reads or writes. -/
structure PokemonSet where
  name : String
  species : String
  item : String
  ability : String
  moves : List String
  nature : String
  gender : String
  evs : StatsTable
  ivs : StatsTable
  level : Nat
  shiny : Bool := false
  teraType : Option String := none
  hpType : Option String := none
deriving DecidableEq

/-- Curated set shape (`DexSet` in the source). -/
structure DexSet where
  moves : List String
  level : Option Nat := none
  ability : Option (LoS String) := none
  item : Option (LoS String) := none
  nature : Option (LoS String) := none
  teratypes : Option (LoS String) := none
  evs : Option (LoS PartialStatsTable) := none
  ivs : Option (LoS PartialStatsTable) := none
deriving DecidableEq

/-- Format object from the reference database; `ruleTable` models the rule
clauses exposed through `Dex.formats.getRuleTable`. -/
structure Format where
  id : String
  name : String
  «exists» : Bool
  banlist : List String
  ruleTable : List String
deriving DecidableEq

/-- Species object from the reference database, restricted to the fields
read by this program. -/
structure Specie where
  name : String
  abilities : List String
  isMega : Bool := false
  baseSpecies : String := ""
deriving DecidableEq

/-- Item object from the reference database, restricted to the fields read
by this program; `megaEvolves`/`megaStone` are `string | undefined`. -/
structure Item where
  name : String
  megaEvolves : Option String := none
  megaStone : Option String := none
deriving DecidableEq

/-- Weighted usage bucket of one identity (`LegacyDisplayUsageStatistics`). -/
structure Usage where
  weighted : ℚ
deriving DecidableEq

/-- Per-identity usage statistics maps, insertion-ordered. -/
structure UsageStats where
  usage : Usage
  abilities : List (String × ℚ)
  items : List (String × ℚ)
  spreads : List (String × ℚ)
  moves : List (String × ℚ)
deriving DecidableEq

/-- One format's fetched statistics page. -/
structure StatsData where
  battles : Nat
  pokemon : List (String × UsageStats)
deriving DecidableEq

/-- Generation context (only the number is consulted directly; the dex
lookups live in `Env`). -/
structure Gen where
  num : Nat
deriving DecidableEq

/-- Opaque collaborators of the pipeline: reference-database lookups, the
legality engine (which may mutate the record it is given, hence it returns
a record), and the fetched statistics pages. -/
structure Env where
  getFormat : String → Format
  getSpecie : String → Specie
  genItemsGet : String → Option Item
  moddedItemsGet : String → Option Item
  validateSet : String → PokemonSet → Option (List String) × PokemonSet
  statsFor : String → Option StatsData
  getHiddenPowerType : StatsTable → String
  typeHPdvs : String → PartialStatsTable
  typeHPivs : String → PartialStatsTable

/-- `for (stat in dvs) dvs[stat] *= 2` — double every present entry. -/
def doublePartial (p : PartialStatsTable) : PartialStatsTable :=
  { hp := p.hp.map (· * 2), atk := p.atk.map (· * 2), «def» := p.«def».map (· * 2),
    spa := p.spa.map (· * 2), spd := p.spd.map (· * 2), spe := p.spe.map (· * 2) }

/-- `Object.assign(base, p)` for stat tables: present entries of `p`
override `base`. -/
def assignStats (base : StatsTable) (p : PartialStatsTable) : StatsTable :=
  { hp := p.hp.getD base.hp, atk := p.atk.getD base.atk, «def» := p.«def».getD base.«def»,
    spa := p.spa.getD base.spa, spd := p.spd.getD base.spd, spe := p.spe.getD base.spe }

/-- The Hidden Power reconciliation block, duplicated verbatim at the end of
both `dexToPset` and `usageToPset` in the source. -/
def applyHiddenPower (env : Env) (gen : Gen) (pset : PokemonSet) : PokemonSet :=
  match pset.moves.find? (fun m => strStartsWith m ("Hidden Power")) with
  | none => pset
  | some hp =>
    let type := strDrop hp 13
    if type ≠ "" ∧ env.getHiddenPowerType pset.ivs ≠ type then
      if 7 ≤ gen.num ∧ pset.level = 100 then { pset with hpType := some type }
      else if gen.num = 2 then
        let dvs := doublePartial (env.typeHPdvs type)
        let ivs2 := assignStats pset.ivs dvs
        { pset with ivs := { ivs2 with hp := expectedHP (toPartial ivs2) } }
      else { pset with ivs := assignStats pset.ivs (env.typeHPivs type) }
    else pset

/-- `dexToPset` from the source (variant A record builder). -/
def dexToPset (env : Env) (gen : Gen) (specie : Specie) (dset : DexSet) : PokemonSet :=
  let pset : PokemonSet := {
    name := ""
    species := specie.name
    item := (dset.item.bind first).getD ""
    ability := (dset.ability.bind first).getD (specie.abilities.headD "")
    moves := dset.moves
    nature := (dset.nature.bind first).getD ""
    gender := ""
    evs := fillStats (dset.evs.bind first) (if gen.num < 3 then 252 else 0)
    ivs := fillStats none (if gen.num = 2 then 30 else 31)
    level := dset.level.getD 100
    teraType := dset.teratypes.bind first }
  applyHiddenPower env gen pset

/-- `usageToPset` from the source (variant B record builder). -/
def usageToPset (env : Env) (gen : Gen) (formatID : String) (specieName : String)
    (uset : UsageStats) : PokemonSet :=
  let sr := fromSpread ((top1 uset.spreads).getD "")
  let item := top1 uset.items
  let ability := top1 uset.abilities
  let pset : PokemonSet := {
    name := ""
    species := specieName
    item := match item with
      | none => ""
      | some i => if i = "Nothing" then "" else i
    ability := match ability with
      | none => ""
      | some a => if a = "Nothing" then "" else a
    moves := (topN uset.moves 4).filter (fun m => m ≠ "Nothing")
    nature := sr.nature
    gender := ""
    evs := fillStats (some sr.evs) (if gen.num < 3 then 252 else 0)
    ivs := fillStats none (if gen.num = 2 then 30 else 31)
    level := getLevel formatID }
  applyHiddenPower env gen pset

/-- Condensed output record (`CalcSet` in the source). -/
structure CalcSet where
  moves : List String
  level : Nat
  ability : String
  item : String
  nature : String
  teraType : Option String := none
  evs : PartialCalcStatsTable
  ivs : PartialCalcStatsTable
deriving DecidableEq

/-- `psetToCalcSet` from the source. -/
def psetToCalcSet (genNum : Nat) (pset : PokemonSet) : CalcSet :=
  { level := pset.level
    ability := pset.ability
    item := pset.item
    nature := pset.nature
    teraType := pset.teraType
    ivs := toCalcStatsTable (toPartial pset.ivs) (if genNum = 2 then 30 else 31)
    evs := toCalcStatsTable (toPartial pset.evs) (if genNum > 2 then 0 else 252)
    moves := pset.moves }

/-- The fixed crowned-forme signature-move table from `validatePSet`. -/
def crowned : List (String × String) :=
  [("Zacian-Crowned", "Behemoth Blade"), ("Zamazenta-Crowned", "Behemoth Bash")]

/-- `validatePSet` from the source. The engine call
`validator.validateSet(pset, {})` is the `engine` parameter; because the
engine mutates the record in place, it returns the possibly rewritten
record next to its verdict, and `validatePSet` returns the record's final
state next to the boolean. -/
def validatePSet (engine : PokemonSet → Option (List String) × PokemonSet)
    (format : Format) (pset : PokemonSet) : Bool × PokemonSet :=
  let species := pset.species
  let ability := pset.ability
  let r1 := engine pset
  let invalid := r1.1
  let pset := r1.2
  let pset :=
    match crowned.lookup species with
    | some mv =>
      match pset.moves.findIdx? (fun m => m == "ironhead") with
      | some i => { pset with moves := pset.moves.set i mv }
      | none => pset
    | none => pset
  let pset := { pset with ability := ability }
  match invalid with
  | none => (true, pset)
  | some inv =>
    let step1 : List String × PokemonSet × Bool :=
      if inv.length = 1 ∧ includesSubstr (inv.headD "") ("must be shiny") = true then
        let pset := { pset with shiny := true }
        let r2 := engine pset
        match r2.1 with
        | none => ([], r2.2, true)
        | some inv2 => (inv2, r2.2, false)
      else (inv, pset, false)
    if step1.2.2 then (true, step1.2.1)
    else
      let inv := step1.1
      let pset := step1.2.1
      let step2 : List String × PokemonSet × Bool :=
        if inv.length = 1 ∧
            includesSubstr (inv.headD "") ("has exactly 0 EVs - did you forget to EV it?") = true then
          let pset := { pset with evs := { pset.evs with hp := 1 } }
          let r3 := engine pset
          match r3.1 with
          | none => ([], r3.2, true)
          | some inv3 => (inv3, r3.2, false)
        else (inv, pset, false)
      if step2.2.2 then (true, step2.2.1)
      else
        let inv := step2.1
        let pset := step2.2.1
        if format.id = "gen4ubers" ∧ inv.contains (pset.name ++ " is banned.") = true then (true, pset)
        else (false, pset)

/-- The `^gen(\d+)` prefix extraction used by `similarFormes` (the source
asserts the match with `!`; an id without the prefix is modelled as `none`). -/
def parseGenNum (s : String) : Option Nat :=
  if strStartsWith s ("gen") then
    let digits : String := ⟨(s.toList.drop 3).takeWhile Char.isDigit⟩
    if digits = "" then none else strToNatOpt digits
  else none

/-- The Mega Rayquaza permission check inside `similarFormes`. -/
def isMrayAllowed (f : Format) : Bool :=
  let genNum := (parseGenNum f.id).getD 0
  if genNum = 6 || genNum = 7 then
    !(f.ruleTable.contains ("megarayquazaclause")) && !(f.banlist.contains ("Rayquaza-Mega"))
  else
    includesSubstr f.id ("nationaldex") &&
      (!(f.ruleTable.contains ("megarayquazaclause")) && !(f.banlist.contains ("Rayquaza-Mega")))

/-- The held-item mega-stone branch of `similarFormes`:
`item?.megaEvolves && item.megaStone && specie.name === item.megaEvolves`. -/
def stoneCheck (specie : Specie) (item : Option Item) : Option (List String) :=
  match item with
  | some it =>
    if jsTruthy it.megaEvolves && jsTruthy it.megaStone &&
        (specie.name == it.megaEvolves.getD "") then
      some [if specie.isMega then specie.baseSpecies else it.megaStone.getD ""]
    else none
  | none => none

/-- The fixed base-identity → alternate-formes switch at the end of
`similarFormes`. -/
def formeTable (name : String) : Option (List String) :=
  if name = "Aegislash" then some ["Aegislash-Blade", "Aegislash-Shield", "Aegislash-Both"]
  else if name = "Darmanitan-Galar" then some ["Darmanitan-Galar-Zen"]
  else if name = "Keldeo" then some ["Keldeo-Resolute"]
  else if name = "Minior" then some ["Minior-Meteor"]
  else if name = "Palafin" then some ["Palafin-Hero"]
  else if name = "Rayquaza-Mega" then some ["Rayquaza"]
  else if name = "Sirfetch'd" then some ["Sirfetch’d"]
  else if name = "Wishiwashi" then some ["Wishiwashi-School"]
  else none

/-- `similarFormes` from the source. -/
def similarFormes (pset : PokemonSet) (format : Option Format) (specie : Specie)
    (item : Option Item) : Option (List String) :=
  let b1 : Bool :=
    match format with
    | some f => pset.species == "Rayquaza" && pset.moves.contains ("Dragon Ascent") &&
        isMrayAllowed f
    | none => false
  if b1 then some ["Rayquaza-Mega"]
  else
    let b2 : Bool :=
      match format with
      | some f => pset.species == "Rayquaza-Mega" &&
          (!(includesSubstr f.id ("balancedhackmons")) || includesSubstr f.id ("bh"))
      | none => false
    if b2 then some ["Rayquaza"]
    else if pset.ability == "Power Construct" then some ["Zygarde-Complete"]
    else
      match stoneCheck specie item with
      | some r => some r
      | none => formeTable specie.name

example : top [] 0 = TopResult.undef := by decide

example : top [(("a" : String), (mkRat 1 2 : ℚ))] 1 = TopResult.one ("a") := by decide

example : top [(("", 5) : String × ℚ), (("a", 1) : String × ℚ)] 1 = TopResult.one ("a") := by decide

example : topN [(("a", 1) : String × ℚ), (("b", 2) : String × ℚ)] 2 = ["b", "a"] := by decide

example : (fromSpread ("Adamant:252/0/0/0/4/252")).nature = "Adamant" := by decide

example : (fromSpread ("Adamant:252/0/0/0/4/252")).evs =
    { hp := some 252, spd := some 4, spe := some 252 } := by decide

/-- Insertion-ordered association-map assignment `m[k] = v`: replaces in
place if the key exists, appends otherwise (JavaScript object semantics). -/
def upsertA {β : Type} (m : List (String × β)) (k : String) (v : β) : List (String × β) :=
  match m with
  | [] => [(k, v)]
  | kv :: rest => if kv.1 = k then (k, v) :: rest else kv :: upsertA rest k v

/-- Association-map lookup `m[k]`. -/
def lookupA {β : Type} (m : List (String × β)) (k : String) : Option β :=
  (m.find? (fun kv => kv.1 == k)).map (fun kv => kv.2)

/-- The accumulated output: identity name → label → CalcSet. -/
abbrev CalcMap := List (String × List (String × CalcSet))

/-- The `statsIgnore` coverage record: identity name → set (insertion-ordered,
duplicate-free list) of format ids already covered by curated data. -/
abbrev IgnoreMap := List (String × List String)

/-- `if (!calcSets[sp]) calcSets[sp] = {}; calcSets[sp][label] = v`. -/
def setCalc (cs : CalcMap) (sp label : String) (v : CalcSet) : CalcMap :=
  upsertA cs sp (upsertA ((lookupA cs sp).getD []) label v)

/-- `if (!statsIgnore[sp]) statsIgnore[sp] = new Set(); statsIgnore[sp].add(fid)`. -/
def addIgnore (ig : IgnoreMap) (sp fid : String) : IgnoreMap :=
  let cur := (lookupA ig sp).getD []
  upsertA ig sp (if cur.contains fid then cur else cur ++ [fid])

/-- `statsIgnore[sp]?.has(fid)`. -/
def coveredB (ig : IgnoreMap) (sp fid : String) : Bool :=
  match lookupA ig sp with
  | some s => s.contains fid
  | none => false

/-- `Set.add` on the iteration-ordered format-id set. -/
def addUnique (l : List String) (x : String) : List String :=
  if l.contains x then l else l ++ [x]

/-- The `UNSUPPORTED` format table from the source. -/
def UNSUPPORTED : List (String × String) :=
  [("gen9almostanyability", "[Gen 9] Almost Any Ability"), ("gen9lc", "[Gen 9] LC")]

/-- `formatName.slice(formatName.indexOf(']') + 2)` — strip the leading
bracketed generation tag (when `]` is absent, `indexOf` gives `-1` and the
slice drops one character, faithfully to JavaScript). -/
def stripTag (s : String) : String :=
  match s.toList.findIdx? (fun c => c = ']') with
  | some i => ⟨s.toList.drop (i + 2)⟩
  | none => ⟨s.toList.drop 1⟩

/-- Mutable state of `importGen`'s curated pass: the output map, the
coverage record and the encountered format ids. -/
structure ImportState where
  calcSets : CalcMap
  statsIgnore : IgnoreMap
  formatIDs : List String
deriving DecidableEq

/-- `gen.items.get(x) ?? ModdedDex.forGen(gen.num).items.get(x)`. -/
def itemLookup (env : Env) (s : String) : Option Item :=
  (env.genItemsGet s).orElse (fun _ => env.moddedItemsGet s)

/-- Body of the innermost curated-pass loop of `importGen`: build one record
from `entry`, validate it, store it, record coverage, and propagate it to
similar formes. -/
def processDexEntry (env : Env) (gen : Gen) (formatID : String) (format : Option Format)
    (formatName : String) (specieName : String) (specie : Specie)
    (st : ImportState) (entry : String × DexSet) : ImportState :=
  let pset0 := dexToPset env gen specie entry.2
  let vres : Bool × PokemonSet :=
    match format with
    | some f => validatePSet (env.validateSet f.id) f pset0
    | none => (true, pset0)
  if !vres.1 then st
  else
    let pset := vres.2
    let calcSet := psetToCalcSet gen.num pset
    let setName := stripTag formatName ++ " " ++ entry.1
    let st := { st with
      calcSets := setCalc st.calcSets specieName setName calcSet
      statsIgnore := addIgnore st.statsIgnore specieName formatID }
    let item := itemLookup env pset.item
    match similarFormes pset format specie item with
    | some copyTo =>
      if copyTo.length ≠ 0 then
        copyTo.foldl (fun st forme =>
          let st := { st with statsIgnore := addIgnore st.statsIgnore forme formatID }
          let cset :=
            if includesSubstr forme ("-Mega") then
              { calcSet with ability := (env.getSpecie forme).abilities.headD "" }
            else calcSet
          { st with calcSets := setCalc st.calcSets forme setName cset }) st
      else st
    | none => st

/-- Body of the per-format curated-pass loop of `importGen`: resolve the
generation-prefixed format id, skip unknown formats, then process every
named set of this (identity, format) pair. -/
def processDexFormat (env : Env) (gen : Gen) (specieName : String) (st : ImportState)
    (fmtEntry : String × List (String × DexSet)) : ImportState :=
  let formatID := "gen" ++ toString gen.num ++ fmtEntry.1
  let format : Option Format :=
    match lookupA UNSUPPORTED formatID with
    | some _ => none
    | none => some (env.getFormat formatID)
  if (match format with | some f => !f.«exists» | none => false) then st
  else
    let st := { st with formatIDs := addUnique st.formatIDs formatID }
    let formatName :=
      match format with
      | some f => f.name
      | none => (lookupA UNSUPPORTED formatID).getD ""
    let specie := env.getSpecie specieName
    fmtEntry.2.foldl (processDexEntry env gen formatID format formatName specieName specie) st

/-- The whole curated pass of `importGen`, folded from an arbitrary start
state (the source starts from the empty state). -/
def dexPassFrom (env : Env) (gen : Gen)
    (dexSets : List (String × List (String × List (String × DexSet))))
    (st : ImportState) : ImportState :=
  dexSets.foldl (fun st se => se.2.foldl (processDexFormat env gen se.1) st) st

/-- The curated pass of `importGen` as the source runs it. -/
def dexPass (env : Env) (gen : Gen)
    (dexSets : List (String × List (String × List (String × DexSet)))) : ImportState :=
  dexPassFrom env gen dexSets ⟨[], [], []⟩

/-- Body of the usage-pass propagation loop of `importGen`. The unguarded
`item.megaEvolves` property access of the source becomes an `Except.error`
when the item lookup produced nothing. -/
def processUsageForme (env : Env) (ignore : IgnoreMap) (formatID setName : String)
    (calcSet : CalcSet) (item : Option Item)
    (cs : CalcMap) (forme : String) : Except String CalcMap :=
  if coveredB ignore forme formatID then .ok cs
  else
    match item with
    | none => .error ("TypeError: cannot read properties of undefined")
    | some it =>
      if jsTruthy it.megaEvolves && jsTruthy it.megaStone then
        .ok (setCalc cs forme setName { calcSet with ability := (env.getSpecie forme).abilities.headD "" })
      else .ok (setCalc cs forme setName calcSet)

/-- Body of the per-identity usage-pass loop of `importGen`: skip covered or
insignificant identities, build and validate the usage record, store it
under the "Showdown Usage" label, and propagate. -/
def processUsagePokemon (env : Env) (gen : Gen) (ignore : IgnoreMap) (formatID : String)
    (format : Option Format) (formatName : String) (threshold : WithTop ℚ)
    (cs : CalcMap) (entry : String × UsageStats) : Except String CalcMap :=
  let specieName := entry.1
  let uset := entry.2
  if coveredB ignore specieName formatID then .ok cs
  else if (uset.usage.weighted : WithTop ℚ) < threshold then .ok cs
  else
    let specie := env.getSpecie specieName
    let pset0 := usageToPset env gen formatID specie.name uset
    let vres : Bool × PokemonSet :=
      match format with
      | some f => validatePSet (env.validateSet f.id) f pset0
      | none => (true, pset0)
    if !vres.1 then .ok cs
    else
      let pset := vres.2
      let calcSet := psetToCalcSet gen.num pset
      let setName := stripTag formatName ++ " Showdown Usage"
      let cs := setCalc cs specieName setName calcSet
      let item := itemLookup env pset.item
      match similarFormes pset format specie item with
      | some copyTo =>
        if copyTo.length ≠ 0 then
          copyTo.foldlM (processUsageForme env ignore formatID setName calcSet item) cs
        else .ok cs
      | none => .ok cs

/-- Usage-pass processing of one format from `importGen`: resolve the
format, skip formats without a statistics page, compute the significance
threshold, then process every identity of the page. -/
def statsPassFormat (env : Env) (gen : Gen) (ignore : IgnoreMap) (cs : CalcMap)
    (formatID : String) (statsData : Option StatsData) : Except String CalcMap :=
  let format : Option Format :=
    match lookupA UNSUPPORTED formatID with
    | some _ => none
    | none => some (env.getFormat formatID)
  let formatName :=
    match format with
    | some f => f.name
    | none => (lookupA UNSUPPORTED formatID).getD ""
  if (match format with | some f => !f.«exists» | none => false) then .ok cs
  else
    match statsData with
    | none => .ok cs
    | some stats =>
      let threshold := getUsageThreshold formatID stats.battles
      stats.pokemon.foldlM
        (processUsagePokemon env gen ignore formatID format formatName threshold) cs

/-- The whole usage pass of `importGen`: every format the curated pass
touched, in encounter order. -/
def statsPass (env : Env) (gen : Gen) (ignore : IgnoreMap) (cs : CalcMap)
    (formatIDs : List String) : Except String CalcMap :=
  formatIDs.foldlM (fun cs fid => statsPassFormat env gen ignore cs fid (env.statsFor fid)) cs

/-- `importGen` from the source: the curated pass followed by the usage
pass (fetches are modelled as the `Env` data)." -/
def importGen (env : Env) (gen : Gen)
    (dexSets : List (String × List (String × List (String × DexSet)))) :
    Except String CalcMap :=
  let st := dexPass env gen dexSets
  statsPass env gen st.statsIgnore st.calcSets st.formatIDs

example : stripTag ("[Gen 9] OU") = "OU" := by decide

example : stripTag ("NoTag") = "oTag" := by decide

example : ("gen" ++ toString (9 : Nat) ++ "ou" : String) = "gen9ou" := by decide

theorem condenseEntry_eq_some (o : Option Nat) (ign v : Nat) :
    condenseEntry o ign = some v ↔ o = some v ∧ v ≠ ign := by
  cases o with
  | none => simp [condenseEntry]
  | some w =>
    by_cases hw : w = ign <;> simp [condenseEntry, hw] <;> aesop

theorem condenseEntry_getD (w ign : Nat) :
    (condenseEntry (some w) ign).getD ign = w := by
  by_cases hw : w = ign <;> simp [condenseEntry, hw]

/-- C2 (counterexample): the claim's case-insensitive reading of the
lower-playerbase pattern is false of the code: `"gen9UBER"` contains
`"uber"` case-insensitively, yet `getUsageThreshold` at 10000 battles gives
0.01, not the claimed 0.03 — the source regex `/uber|anythinggoes|doublesou/`
has no `i` flag. -/
theorem c2_counterexample :
    specLowerQualityMatch ("gen9UBER") = true ∧
    getUsageThreshold ("gen9UBER") 10000 = ((mkRat 1 100 : ℚ) : WithTop ℚ) ∧
    ((mkRat 1 100 : ℚ) : WithTop ℚ) ≠ ((mkRat 3 100 : ℚ) : WithTop ℚ) := by
  refine ⟨by decide, by decide, by decide⟩

/-- C2 (amended): the usage-significance threshold is `⊤` (infinity) when
the battle count is below 100 (so a weighted usage of 99.9 stays below it
and is rejected), 0.05 when the count is in [100, 400), and otherwise 0.03
exactly when the format identifier contains `"uber"`, `"anythinggoes"` or
`"doublesou"` as a case-SENSITIVE substring and 0.01 otherwise; in
particular 10000 battles give 0.03 for `"gen9ubers"` and 0.01 for
`"gen9ou"`. -/
theorem c2_usage_threshold (formatID : String) (count : Nat) :
    (count < 100 → getUsageThreshold formatID count = ⊤ ∧
      ((mkRat 999 10 : ℚ) : WithTop ℚ) < ⊤) ∧
    (100 ≤ count → count < 400 →
      getUsageThreshold formatID count = ((mkRat 5 100 : ℚ) : WithTop ℚ)) ∧
    (400 ≤ count →
      (includesSubstr formatID ("uber") || includesSubstr formatID ("anythinggoes") ||
        includesSubstr formatID ("doublesou")) = true →
      getUsageThreshold formatID count = ((mkRat 3 100 : ℚ) : WithTop ℚ)) ∧
    (400 ≤ count →
      (includesSubstr formatID ("uber") || includesSubstr formatID ("anythinggoes") ||
        includesSubstr formatID ("doublesou")) = false →
      getUsageThreshold formatID count = ((mkRat 1 100 : ℚ) : WithTop ℚ)) ∧
    getUsageThreshold ("gen9ubers") 10000 = ((mkRat 3 100 : ℚ) : WithTop ℚ) ∧
    getUsageThreshold ("gen9ou") 10000 = ((mkRat 1 100 : ℚ) : WithTop ℚ) := by
  refine ⟨?_, ?_, ?_, ?_, by decide, by decide⟩
  · intro h
    exact ⟨by rw [getUsageThreshold, if_pos h], by decide⟩
  · intro h1 h2
    rw [getUsageThreshold, if_neg (by omega), if_pos h2]
  · intro h hm
    rw [getUsageThreshold, if_neg (by omega), if_neg (by omega)]
    simp [hm]
  · intro h hm
    rw [getUsageThreshold, if_neg (by omega), if_neg (by omega)]
    simp [hm]

/-- C2 (witness): a concrete application of the amended threshold theorem. -/
theorem c2_witness :
    getUsageThreshold ("gen9doublesou") 500 = ((mkRat 3 100 : ℚ) : WithTop ℚ) :=
  (c2_usage_threshold ("gen9doublesou") 500).2.2.1 (by decide) (by decide)

/-- C3 (counterexample): on the claimed input `{atk:30, def:30, spe:30,
spa:30}` the era-2 HP derivation does NOT produce 0: each halved component
is `floor(30/2) = 15`, which is odd, so every low bit is set. -/
theorem c3_counterexample :
    expectedHP { atk := some 30, «def» := some 30, spe := some 30, spa := some 30 } ≠ 0 := by
  decide

/-- C3 (amended): for every partial hidden-encoding table the derivation
fills missing values to 31 and returns
`2 * (8·(atkDV%2) + 4·(defDV%2) + 2·(speDV%2) + 1·(spcDV%2))` with
`DV = floor(value/2)`; on all-odd halved sources it produces 30, on
all-even halved sources it produces 0, and on `{atk:30, def:30, spe:30,
spa:30}` (halved components 15, all odd) it produces 30, not 0. -/
theorem c3_expected_hp (ivs : PartialStatsTable) :
    expectedHP ivs =
      2 * ((((ivs.atk.getD 31) / 2) % 2) * 8 + (((ivs.«def».getD 31) / 2) % 2) * 4 +
        (((ivs.spe.getD 31) / 2) % 2) * 2 + (((ivs.spa.getD 31) / 2) % 2)) ∧
    (((ivs.atk.getD 31) / 2) % 2 = 1 → ((ivs.«def».getD 31) / 2) % 2 = 1 →
      ((ivs.spe.getD 31) / 2) % 2 = 1 → ((ivs.spa.getD 31) / 2) % 2 = 1 →
      expectedHP ivs = 30) ∧
    (((ivs.atk.getD 31) / 2) % 2 = 0 → ((ivs.«def».getD 31) / 2) % 2 = 0 →
      ((ivs.spe.getD 31) / 2) % 2 = 0 → ((ivs.spa.getD 31) / 2) % 2 = 0 →
      expectedHP ivs = 0) ∧
    expectedHP { atk := some 30, «def» := some 30, spe := some 30, spa := some 30 } = 30 := by
  have base : expectedHP ivs =
      2 * ((((ivs.atk.getD 31) / 2) % 2) * 8 + (((ivs.«def».getD 31) / 2) % 2) * 4 +
        (((ivs.spe.getD 31) / 2) % 2) * 2 + (((ivs.spa.getD 31) / 2) % 2)) := rfl
  refine ⟨base, ?_, ?_, by decide⟩
  · intro h1 h2 h3 h4
    rw [base, h1, h2, h3, h4]
  · intro h1 h2 h3 h4
    rw [base, h1, h2, h3, h4]

/-- C3 (witness): the amended theorem applied to the all-even-halved table
with every source value 28. -/
theorem c3_witness :
    expectedHP { atk := some 28, «def» := some 28, spe := some 28, spa := some 28 } = 0 :=
  (c3_expected_hp { atk := some 28, «def» := some 28, spe := some 28, spa := some 28 }).2.2.1
    (by decide) (by decide) (by decide) (by decide)

/-- C6: the condensed two-letter table contains exactly the present stats
whose value differs from the ignore value, and re-expanding a condensed
full table with the same ignore value as fill reproduces the original
table. -/
theorem c6_stat_table_normalizer (stats : PartialStatsTable) (ign : Nat) (full : StatsTable) :
    (∀ v, (toCalcStatsTable stats ign).hp = some v ↔ stats.hp = some v ∧ v ≠ ign) ∧
    (∀ v, (toCalcStatsTable stats ign).«at» = some v ↔ stats.atk = some v ∧ v ≠ ign) ∧
    (∀ v, (toCalcStatsTable stats ign).df = some v ↔ stats.«def» = some v ∧ v ≠ ign) ∧
    (∀ v, (toCalcStatsTable stats ign).sa = some v ↔ stats.spa = some v ∧ v ≠ ign) ∧
    (∀ v, (toCalcStatsTable stats ign).sd = some v ↔ stats.spd = some v ∧ v ≠ ign) ∧
    (∀ v, (toCalcStatsTable stats ign).sp = some v ↔ stats.spe = some v ∧ v ≠ ign) ∧
    fromCalcStatsTable (toCalcStatsTable (toPartial full) ign) ign = full := by
  refine ⟨fun v => condenseEntry_eq_some _ _ _, fun v => condenseEntry_eq_some _ _ _,
    fun v => condenseEntry_eq_some _ _ _, fun v => condenseEntry_eq_some _ _ _,
    fun v => condenseEntry_eq_some _ _ _, fun v => condenseEntry_eq_some _ _ _, ?_⟩
  cases full with
  | mk hp atk d spa spd spe =>
    simp only [fromCalcStatsTable, toCalcStatsTable, toPartial, condenseEntry_getD]

theorem lookupWeight_cons_self (kv : String × ℚ) (rest : List (String × ℚ)) :
    lookupWeight (kv :: rest) kv.1 = kv.2 := by
  simp [lookupWeight, List.find?_cons_of_pos]

theorem lookupWeight_cons_ne (kv : String × ℚ) (rest : List (String × ℚ)) (k : String)
    (h : kv.1 ≠ k) : lookupWeight (kv :: rest) k = lookupWeight rest k := by
  simp only [lookupWeight]
  rw [List.find?_cons_of_neg]
  simp [h]

theorem lookupWeight_of_mem :
    ∀ (w : List (String × ℚ)), (w.map Prod.fst).Nodup →
      ∀ k q, (k, q) ∈ w → lookupWeight w k = q := by
  intro w
  induction w with
  | nil => intro _ k q hm; simp at hm
  | cons kv rest ih =>
    intro hnd k q hm
    simp only [List.map_cons, List.nodup_cons] at hnd
    rcases List.mem_cons.mp hm with h | h
    · rw [← h]
      exact lookupWeight_cons_self (k, q) rest
    · by_cases hk : kv.1 = k
      · exact absurd (hk ▸ List.mem_map.mpr ⟨(k, q), h, rfl⟩) hnd.1
      · rw [lookupWeight_cons_ne kv rest k hk]
        exact ih hnd.2 k q h

/-- The first-enumerated key holding the maximum weight of the prefix
`pre` of the map `w`. -/
def IsFirstMax (w pre : List (String × ℚ)) (k : String) : Prop :=
  ∃ q p₁ p₂, pre = p₁ ++ (k, q) :: p₂ ∧ lookupWeight w k = q ∧
    (∀ e ∈ p₁, e.2 < q) ∧ (∀ e ∈ pre, e.2 ≤ q)

theorem isFirstMax_key_mem (w pre : List (String × ℚ)) (k : String)
    (h : IsFirstMax w pre k) : k ∈ pre.map Prod.fst := by
  obtain ⟨q, p₁, p₂, hpre, _, _, _⟩ := h
  subst hpre
  simp

theorem top1_go (w : List (String × ℚ)) (hnd : (w.map Prod.fst).Nodup)
    (hnk : ("" : String) ∉ w.map Prod.fst) :
    ∀ (rest pre : List (String × ℚ)) (acc : Option String),
      w = pre ++ rest →
      ((pre = [] ∧ acc = none) ∨ (∃ k, acc = some k ∧ IsFirstMax w pre k)) →
      (rest.foldl (top1step w) acc = none ∧ pre ++ rest = []) ∨
        (∃ k, rest.foldl (top1step w) acc = some k ∧ IsFirstMax w (pre ++ rest) k) := by
  intro rest
  induction rest with
  | nil =>
    intro pre acc hw hinv
    rcases hinv with ⟨hpre, hacc⟩ | ⟨k, hacc, hmax⟩
    · exact Or.inl ⟨by simp [hacc], by simp [hpre]⟩
    · exact Or.inr ⟨k, by simpa using hacc, by simpa using hmax⟩
  | cons kv rest' ih =>
    intro pre acc hw hinv
    have hkv_mem : kv ∈ w := by rw [hw]; simp
    have hkv_w : lookupWeight w kv.1 = kv.2 := by
      have : (kv.1, kv.2) ∈ w := by simpa using hkv_mem
      exact lookupWeight_of_mem w hnd kv.1 kv.2 this
    have hw' : w = (pre ++ [kv]) ++ rest' := by simp [hw]
    rcases hinv with ⟨hpre, hacc⟩ | ⟨k, hacc, hmax⟩
    · subst hpre
      subst hacc
      have hstep : top1step w none kv = some kv.1 := by simp [top1step, jsFalsyOpt]
      have hinv' : ([] ++ [kv] : List (String × ℚ)) = [] ++ (kv.1, kv.2) :: [] := by simp
      have := ih ([] ++ [kv]) (some kv.1) hw'
        (Or.inr ⟨kv.1, rfl, kv.2, [], [], by simp, hkv_w, by simp, by simp⟩)
      simpa [hstep] using this
    · subst hacc
      have hk_mem : k ∈ pre.map Prod.fst := isFirstMax_key_mem w pre k hmax
      have hk_ne : k ≠ "" := by
        intro h
        subst h
        exact hnk (by rw [hw]; simpa using Or.inl hk_mem)
      obtain ⟨q, p₁, p₂, hpre, hkw, hlt, hle⟩ := hmax
      have hfalsy : jsFalsyOpt (some k) = false := by
        simp [jsFalsyOpt]
        exact hk_ne
      by_cases hcmp : lookupWeight w k < lookupWeight w kv.1
      · have hstep : top1step w (some k) kv = some kv.1 := by
          simp [top1step, hfalsy, hcmp]
        have hq_lt : q < kv.2 := by rw [← hkw, ← hkv_w]; exact hcmp
        have hmax' : IsFirstMax w (pre ++ [kv]) kv.1 := by
          refine ⟨kv.2, pre, [], by simp, hkv_w, ?_, ?_⟩
          · intro e he
            exact lt_of_le_of_lt (hle e he) hq_lt
          · intro e he
            rcases List.mem_append.mp he with h | h
            · exact le_of_lt (lt_of_le_of_lt (hle e h) hq_lt)
            · simp at h
              subst h
              exact le_refl _
        have := ih (pre ++ [kv]) (some kv.1) hw' (Or.inr ⟨kv.1, rfl, hmax'⟩)
        simpa [hstep] using this
      · have hstep : top1step w (some k) kv = some k := by
          simp [top1step, hfalsy, hcmp]
        have hkv_le : kv.2 ≤ q := by
          rw [← hkw, ← hkv_w] at *
          exact le_of_not_lt hcmp
        have hmax' : IsFirstMax w (pre ++ [kv]) k := by
          refine ⟨q, p₁, p₂ ++ [kv], by simp [hpre], hkw, hlt, ?_⟩
          intro e he
          rcases List.mem_append.mp he with h | h
          · exact hle e h
          · simp at h
            subst h
            exact hkv_le
        have := ih (pre ++ [kv]) (some k) hw' (Or.inr ⟨k, rfl, hmax'⟩)
        simpa [hstep] using this

theorem top1_spec (w : List (String × ℚ)) (hne : w ≠ [])
    (hnd : (w.map Prod.fst).Nodup) (hnk : ("" : String) ∉ w.map Prod.fst) :
    ∃ k, top1 w = some k ∧ IsFirstMax w w k := by
  have := top1_go w hnd hnk w [] none rfl (Or.inl ⟨rfl, rfl⟩)
  rcases this with ⟨_, habs⟩ | ⟨k, hfold, hmax⟩
  · exact absurd (by simpa using habs) hne
  · exact ⟨k, by simpa [top1] using hfold, by simpa using hmax⟩

instance : IsTotal (String × ℚ) (fun a b => b.2 ≤ a.2) :=
  ⟨fun a b => le_total b.2 a.2⟩

instance : IsTrans (String × ℚ) (fun a b => b.2 ≤ a.2) :=
  ⟨fun _ _ _ h1 h2 => le_trans h2 h1⟩

/-- C7 (counterexample): on the non-empty weight map with keys `""` (weight
5) and `"a"` (weight 1), `top(map, 1)` returns `"a"`, which does not hold
the maximum weight — the JavaScript `!max` guard re-fires on the falsy
empty-string key, so every later key overwrites it unconditionally. -/
theorem c7_counterexample :
    top [(("" : String), (mkRat 5 1 : ℚ)), (("a" : String), (mkRat 1 1 : ℚ))] 1 =
      TopResult.one ("a") ∧
    ¬ (∀ e ∈ [(("" : String), (mkRat 5 1 : ℚ)), (("a" : String), (mkRat 1 1 : ℚ))],
        e.2 ≤ lookupWeight [(("" : String), (mkRat 5 1 : ℚ)), (("a" : String), (mkRat 1 1 : ℚ))]
          ("a")) := by
  refine ⟨by decide, by decide⟩

/-- C7 (amended): `top(map, 0)` returns `undefined` for every map;
`top([], 1)` returns `undefined`; for every non-empty map whose keys are
distinct and do not include the empty string, `top(map, 1)` returns the
first-enumerated key holding the maximum weight (the empty-string key
breaks this, see the counterexample); and for `n ≥ 2`, `top(map, n)`
returns the keys of the first `min(n, |map|)` entries of a
descending-weight sorting of the map — the input list itself is never
modified (the embedding is pure). -/
theorem c7_top_selector :
    (∀ w, top w 0 = TopResult.undef) ∧
    top [] 1 = TopResult.undef ∧
    (∀ w : List (String × ℚ), w ≠ [] → (w.map Prod.fst).Nodup →
      ("" : String) ∉ w.map Prod.fst →
      ∃ k q p₁ p₂, top w 1 = TopResult.one k ∧ w = p₁ ++ (k, q) :: p₂ ∧
        lookupWeight w k = q ∧ (∀ e ∈ p₁, e.2 < q) ∧ (∀ e ∈ w, e.2 ≤ q)) ∧
    (∀ (w : List (String × ℚ)) (n : Nat), 2 ≤ n →
      ∃ s : List (String × ℚ), s.Perm w ∧ List.Sorted (· ≥ ·) (s.map (fun e => e.2)) ∧
        top w n = TopResult.many ((s.take n).map (fun e => e.1)) ∧
        (topN w n).length = min n w.length) := by
  refine ⟨fun w => rfl, rfl, ?_, ?_⟩
  · intro w hne hnd hnk
    obtain ⟨k, h1, q, p₁, p₂, hpre, hkw, hlt, hle⟩ := top1_spec w hne hnd hnk
    exact ⟨k, q, p₁, p₂, by simp [top, h1], hpre, hkw, hlt, hle⟩
  · intro w n hn
    refine ⟨sortDescWeight w, List.perm_insertionSort _ w, ?_, ?_, ?_⟩
    · have hs := List.sorted_insertionSort (fun (a b : String × ℚ) => b.2 ≤ a.2) w
      simp only [sortDescWeight]
      exact @List.Pairwise.map ℚ (String × ℚ) (fun a b => b.2 ≤ a.2)
        (List.insertionSort (fun a b => b.2 ≤ a.2) w) (fun a b => a ≥ b)
        (fun e => e.2) (fun a b h => h) hs
    · rw [top, if_neg (by omega), if_neg (by omega)]
      rfl
    · rw [topN, List.length_map, List.length_take]
      simp [sortDescWeight, (List.perm_insertionSort (fun (a b : String × ℚ) => b.2 ≤ a.2) w).length_eq]

/-- C7 (witness): the amended selector theorem applied to a concrete
two-entry map. -/
theorem c7_witness :
    top [(("a" : String), (mkRat 1 1 : ℚ)), (("b" : String), (mkRat 2 1 : ℚ))] 1 =
      TopResult.one ("b") ∧
    (topN [(("a" : String), (mkRat 1 1 : ℚ)), (("b" : String), (mkRat 2 1 : ℚ))] 3).length = 2 := by
  constructor
  · obtain ⟨k, q, p₁, p₂, h1, h2, h3, h4, h5⟩ :=
      c7_top_selector.2.2.1 [(("a" : String), (mkRat 1 1 : ℚ)), (("b" : String), (mkRat 2 1 : ℚ))]
        (by decide) (by decide) (by decide)
    have hk : k = "b" := by
      have hmem : (k, q) ∈ [(("a" : String), (mkRat 1 1 : ℚ)), (("b" : String), (mkRat 2 1 : ℚ))] := by
        rw [h2]; simp
      have ha := h5 (("a" : String), (mkRat 1 1 : ℚ)) (by simp)
      rcases List.mem_cons.mp hmem with h | h
      · exfalso
        have : q = mkRat 1 1 := by simpa using congrArg Prod.snd h
        have hb := h5 (("b" : String), (mkRat 2 1 : ℚ)) (by simp)
        rw [this] at hb
        exact absurd hb (by decide)
      · have hkb : k = "b" ∧ q = mkRat 2 1 := by simpa using h
        exact hkb.1
    rw [hk] at h1
    exact h1
  · have := c7_top_selector.2.2.2
      [(("a" : String), (mkRat 1 1 : ℚ)), (("b" : String), (mkRat 2 1 : ℚ))] 3 (by omega)
    obtain ⟨s, _, _, _, hlen⟩ := this
    simpa using hlen

/-- Record used by the C4 counterexample: a Rayquaza-Mega record whose
ability is Power Construct. -/
def c4pset : PokemonSet :=
  { name := "", species := "Rayquaza-Mega", item := "", ability := "Power Construct",
    moves := [], nature := "", gender := "", evs := ⟨0, 0, 0, 0, 0, 0⟩,
    ivs := ⟨31, 31, 31, 31, 31, 31⟩, level := 100 }

/-- A Balanced Hackmons format (not an anything-goes format). -/
def c4format : Format :=
  { id := "gen9balancedhackmons", name := "[Gen 9] Balanced Hackmons", «exists» := true,
    banlist := [], ruleTable := [] }

/-- The Rayquaza-Mega species object. -/
def c4specie : Specie :=
  { name := "Rayquaza-Mega", abilities := ["Delta Stream"], isMega := true,
    baseSpecies := "Rayquaza" }

/-- C4 (counterexample): a Rayquaza-Mega record in `gen9balancedhackmons`
— a format that is not the anything-goes ruleset, so the claim's condition
holds and it predicts propagation to exactly `["Rayquaza"]` — yet the
resolver returns `["Zygarde-Complete"]`: the early Rayquaza-Mega branch is
skipped (the id contains `"balancedhackmons"` and not `"bh"`) and the
Power Construct check fires first. -/
theorem c4_counterexample :
    similarFormes c4pset (some c4format) c4specie none = some ["Zygarde-Complete"] ∧
    includesSubstr c4format.id ("anythinggoes") = false ∧
    (some ["Zygarde-Complete"] : Option (List String)) ≠ some ["Rayquaza"] := by
  refine ⟨by decide, by decide, by decide⟩

/-- C4 (amended): for every record whose identity is `Rayquaza-Mega` and
every non-null format, the resolver returns exactly `["Rayquaza"]`
provided the record's ability is not `Power Construct` and the held item
does not trigger the mega-stone interception — regardless of the format:
the early branch fires when the format id does not contain
`"balancedhackmons"` or contains `"bh"`, and otherwise the fallback forme
table still yields `["Rayquaza"]`. -/
theorem c4_rayquaza_mega_propagation (pset : PokemonSet) (f : Format) (specie : Specie)
    (item : Option Item) (hs : pset.species = "Rayquaza-Mega")
    (hn : specie.name = "Rayquaza-Mega") (ha : pset.ability ≠ "Power Construct")
    (hi : stoneCheck specie item = none) :
    similarFormes pset (some f) specie item = some ["Rayquaza"] := by
  have hb1 : (pset.species == "Rayquaza") = false := by rw [hs]; decide
  have hb2 : (pset.species == "Rayquaza-Mega") = true := by rw [hs]; decide
  have hpc : (pset.ability == "Power Construct") = false := by
    simp [ha]
  have hft : formeTable specie.name = some ["Rayquaza"] := by rw [hn]; decide
  by_cases hc : (!(includesSubstr f.id ("balancedhackmons")) || includesSubstr f.id ("bh")) = true
  · simp [similarFormes, hb1, hb2, hc]
  · simp [similarFormes, hb1, hb2, hc, hpc, hi, hft]

/-- C4 (witness): a Rayquaza-Mega record with a benign ability propagates
back to `["Rayquaza"]` in a Balanced Hackmons format. -/
theorem c4_witness :
    similarFormes { c4pset with ability := "Delta Stream" } (some c4format) c4specie none =
      some ["Rayquaza"] :=
  c4_rayquaza_mega_propagation { c4pset with ability := "Delta Stream" } c4format c4specie none
    rfl rfl (by decide) rfl

/-- C8: for every record whose identity is `Aegislash` (with the species
object resolving to the same identity), any format (or none), an ability
other than `Power Construct` — no legal Aegislash record carries it — and
a held item that does not trigger the mega-stone interception — no item
mega-evolves Aegislash — the resolver yields exactly
`["Aegislash-Blade", "Aegislash-Shield", "Aegislash-Both"]` in that order. -/
theorem c8_aegislash_propagation (pset : PokemonSet) (format : Option Format) (specie : Specie)
    (item : Option Item) (hs : pset.species = "Aegislash") (hn : specie.name = "Aegislash")
    (ha : pset.ability ≠ "Power Construct") (hi : stoneCheck specie item = none) :
    similarFormes pset format specie item =
      some ["Aegislash-Blade", "Aegislash-Shield", "Aegislash-Both"] := by
  have hb1 : (pset.species == "Rayquaza") = false := by rw [hs]; decide
  have hb2 : (pset.species == "Rayquaza-Mega") = false := by rw [hs]; decide
  have hpc : (pset.ability == "Power Construct") = false := by
    simp [ha]
  have hft : formeTable specie.name =
      some ["Aegislash-Blade", "Aegislash-Shield", "Aegislash-Both"] := by
    rw [hn]; decide
  cases format with
  | none => simp [similarFormes, hpc, hi, hft]
  | some f => simp [similarFormes, hb1, hb2, hpc, hi, hft]

/-- C8 (witness): a concrete Aegislash record propagates to the three fixed
formes. -/
theorem c8_witness :
    similarFormes
      { name := "", species := "Aegislash", item := "Leftovers", ability := "Stance Change",
        moves := ["Shadow Ball"], nature := "Modest", gender := "",
        evs := ⟨0, 0, 0, 252, 4, 252⟩, ivs := ⟨31, 31, 31, 31, 31, 31⟩, level := 100 }
      (some c4format)
      { name := "Aegislash", abilities := ["Stance Change"] }
      (some { name := "Leftovers" }) =
      some ["Aegislash-Blade", "Aegislash-Shield", "Aegislash-Both"] :=
  c8_aegislash_propagation _ _ _ _ rfl rfl (by decide) rfl

/-- A plain existing format used by the validator-adapter claims. -/
def fmt0 : Format :=
  { id := "gen9ou", name := "[Gen 9] OU", «exists» := true, banlist := [], ruleTable := [] }

/-- Engine for the C9 counterexample: rejects a non-shiny record with a
single "must be shiny" violation without touching it; accepts the shiny
retry while mutating the ability (the documented mega side effect). -/
def c9engine (p : PokemonSet) : Option (List String) × PokemonSet :=
  if p.shiny then (none, { p with ability := "Mutated" })
  else (some ["this set must be shiny"], p)

/-- Record for the C9 counterexample. -/
def c9pset : PokemonSet :=
  { name := "", species := "Pikachu", item := "", ability := "Static", moves := [],
    nature := "", gender := "", evs := ⟨0, 0, 0, 0, 0, 0⟩, ivs := ⟨31, 31, 31, 31, 31, 31⟩,
    level := 100 }

/-- C9 (counterexample): when the engine mutates the ability during the
shiny-correction retry, the adapter returns with the mutated ability — the
snapshot is restored only once, after the initial call, so the claimed
frame property fails on retry paths. -/
theorem c9_counterexample :
    (validatePSet c9engine fmt0 c9pset).1 = true ∧
    (validatePSet c9engine fmt0 c9pset).2.ability = "Mutated" ∧
    c9pset.ability = "Static" := by
  refine ⟨by decide, by decide, by decide⟩

/-- C9 (amended): the ability is snapshotted before the initial engine call
and restored once after it; on return from the adapter the record's
ability equals its entry value whenever no auto-correction retry fires
(the initial result is valid, or its violation list matches neither
correction guard). A retry invokes the engine again after the restore and
any ability mutation it performs is kept. -/
theorem c9_ability_restore (engine : PokemonSet → Option (List String) × PokemonSet)
    (f : Format) (pset : PokemonSet)
    (h : (engine pset).1 = none ∨
      ∃ inv, (engine pset).1 = some inv ∧
        ¬(inv.length = 1 ∧ includesSubstr (inv.headD "") ("must be shiny") = true) ∧
        ¬(inv.length = 1 ∧
          includesSubstr (inv.headD "") ("has exactly 0 EVs - did you forget to EV it?") = true)) :
    (validatePSet engine f pset).2.ability = pset.ability := by
  rcases h with h | ⟨inv, hinv, hg1, hg2⟩
  · simp [validatePSet, h]
  · simp only [List.headD_eq_head?_getD] at hg1 hg2
    simp [validatePSet, hinv, hg1, hg2, apply_ite]

/-- C9 (witness): an engine that mutates the ability on the (single,
accepted) initial call still hands back the entry ability. -/
theorem c9_witness :
    (validatePSet (fun p => (none, { p with ability := "Engine" })) fmt0 c9pset).2.ability =
      c9pset.ability :=
  c9_ability_restore (fun p => (none, { p with ability := "Engine" })) fmt0 c9pset (Or.inl rfl)

/-- Engine for the C5 counterexample: a non-shiny record draws a single
"must be shiny" violation; a shiny record with 0 HP EVs draws a single
"has exactly 0 EVs" violation; otherwise the record passes. -/
def c5engine (p : PokemonSet) : Option (List String) × PokemonSet :=
  if !p.shiny then (some ["Pikachu must be shiny"], p)
  else if p.evs.hp = 0 then
    (some ["Pikachu has exactly 0 EVs - did you forget to EV it?"], p)
  else (none, p)

/-- Record for the C5 counterexample. -/
def c5pset : PokemonSet :=
  { name := "", species := "Pikachu", item := "", ability := "Static", moves := [],
    nature := "", gender := "", evs := ⟨0, 0, 0, 0, 0, 0⟩, ivs := ⟨31, 31, 31, 31, 31, 31⟩,
    level := 100 }

/-- C5 (counterexample): against `c5engine` the adapter applies BOTH
corrections in a single call — the initial violation list holds only the
shiny violation, yet after the shiny retry the adapter also forces the HP
EV to 1 (deciding on the retry's violation list) and accepts. Under the
claim the two corrections are mutually exclusive alternatives decided on
the initial list, so the EV correction must not fire and the call must be
rejected. -/
theorem c5_counterexample :
    (validatePSet c5engine fmt0 c5pset).1 = true ∧
    (validatePSet c5engine fmt0 c5pset).2.shiny = true ∧
    (validatePSet c5engine fmt0 c5pset).2.evs.hp = 1 ∧
    c5pset.evs.hp = 0 := by
  refine ⟨by decide, by decide, by decide, by decide⟩

/-- The record handed to the shiny-correction retry: the engine's first
output with the ability restored and shiny forced. -/
def shinyRetryInput (engine : PokemonSet → Option (List String) × PokemonSet)
    (pset : PokemonSet) : PokemonSet :=
  { (engine pset).2 with ability := pset.ability, shiny := true }

/-- The record handed to the EV-correction retry that follows a failed
shiny retry: the shiny retry's output with the HP effort value forced
to 1. -/
def evRetryInput (engine : PokemonSet → Option (List String) × PokemonSet)
    (pset : PokemonSet) : PokemonSet :=
  { (engine (shinyRetryInput engine pset)).2 with
    evs := { (engine (shinyRetryInput engine pset)).2.evs with hp := 1 } }

/-- C5 (amended): when the initial result is exactly one violation
containing "must be shiny", the adapter sets shiny and retries; then, if
the CURRENT (retry) result is exactly one violation containing
"has exactly 0 EVs - did you forget to EV it?", it also forces the HP
effort value to 1 and retries again — each correction fires at most once,
but the two can fire sequentially in one call, the second decided on the
retry's violation list; the call is accepted iff the final retry passes
or the gen4ubers allow-list applies. -/
theorem c5_sequential_corrections
    (engine : PokemonSet → Option (List String) × PokemonSet) (f : Format) (pset : PokemonSet)
    (v1 v2 : String)
    (hsp : crowned.lookup pset.species = none)
    (h1 : (engine pset).1 = some [v1])
    (hv1 : includesSubstr v1 ("must be shiny") = true)
    (h2 : (engine (shinyRetryInput engine pset)).1 = some [v2])
    (hv2 : includesSubstr v2 ("has exactly 0 EVs - did you forget to EV it?") = true) :
    ((engine (evRetryInput engine pset)).1 = none →
      validatePSet engine f pset = (true, (engine (evRetryInput engine pset)).2)) ∧
    (∀ inv3, (engine (evRetryInput engine pset)).1 = some inv3 →
      validatePSet engine f pset =
        (if f.id = "gen4ubers" ∧
            inv3.contains ((engine (evRetryInput engine pset)).2.name ++ " is banned.") = true
         then (true, (engine (evRetryInput engine pset)).2)
         else (false, (engine (evRetryInput engine pset)).2))) := by
  simp only [shinyRetryInput] at h2
  constructor
  · intro h3
    simp only [evRetryInput, shinyRetryInput] at h3
    simp only [validatePSet, hsp, h1, List.length_cons, List.length_nil, List.headD_cons, hv1,
      and_self, and_true, eq_self_iff_true, if_true, zero_add]
    simp only [h2, List.length_cons, List.length_nil, List.headD_cons, hv2, and_self, and_true,
      eq_self_iff_true, if_true, zero_add]
    simp only [h3, evRetryInput, shinyRetryInput]
    simp
  · intro inv3 h3
    simp only [evRetryInput, shinyRetryInput] at h3
    simp only [validatePSet, hsp, h1, List.length_cons, List.length_nil, List.headD_cons, hv1,
      and_self, and_true, eq_self_iff_true, if_true, zero_add]
    simp only [h2, List.length_cons, List.length_nil, List.headD_cons, hv2, and_self, and_true,
      eq_self_iff_true, if_true, zero_add]
    simp only [h3, evRetryInput, shinyRetryInput]
    simp

/-- C5 (witness): the amended theorem applied to `c5engine`, whose third
call accepts — both corrections fire and the record is accepted with
shiny set and HP EV 1. -/
theorem c5_witness :
    validatePSet c5engine fmt0 c5pset = (true, (c5engine (evRetryInput c5engine c5pset)).2) :=
  (c5_sequential_corrections c5engine fmt0 c5pset
    ("Pikachu must be shiny") ("Pikachu has exactly 0 EVs - did you forget to EV it?")
    rfl rfl (by decide) (by decide) (by decide)).1 (by decide)

theorem lookupA_upsertA_self {β : Type} :
    ∀ (m : List (String × β)) (k : String) (v : β), lookupA (upsertA m k v) k = some v := by
  intro m
  induction m with
  | nil => intro k v; simp [upsertA, lookupA]
  | cons kv rest ih =>
    intro k v
    by_cases hk : kv.1 = k
    · simp [upsertA, hk, lookupA]
    · simp only [upsertA, if_neg hk, lookupA, List.find?]
      have : (kv.1 == k) = false := by simp [hk]
      simp only [this]
      exact ih k v

theorem lookupA_upsertA_ne {β : Type} :
    ∀ (m : List (String × β)) (k k' : String) (v : β), k' ≠ k →
      lookupA (upsertA m k v) k' = lookupA m k' := by
  intro m
  induction m with
  | nil =>
    intro k k' v h
    have : (k == k') = false := by simp [Ne.symm h]
    simp [upsertA, lookupA, List.find?, this]
  | cons kv rest ih =>
    intro k k' v h
    by_cases hk : kv.1 = k
    · simp only [upsertA, if_pos hk, lookupA, List.find?]
      have h1 : (k == k') = false := by simp [Ne.symm h]
      have h2 : (kv.1 == k') = false := by simp [hk ▸ Ne.symm h]
      simp [h1, h2]
    · simp only [upsertA, if_neg hk, lookupA, List.find?]
      cases hkk : (kv.1 == k') with
      | true => simp
      | false =>
        simp only []
        exact ih k k' v h

theorem lookup_setCalc_ne (cs : CalcMap) (sp label : String) (v : CalcSet) (Y : String)
    (h : Y ≠ sp) : lookupA (setCalc cs sp label v) Y = lookupA cs Y := by
  simp only [setCalc]
  exact lookupA_upsertA_ne cs sp Y _ h

theorem coveredB_addIgnore_self (ig : IgnoreMap) (sp fid : String) :
    coveredB (addIgnore ig sp fid) sp fid = true := by
  simp only [addIgnore, coveredB, lookupA_upsertA_self]
  by_cases hm : fid ∈ (lookupA ig sp).getD []
  · simp [hm]
  · simp [hm]

theorem coveredB_addIgnore_mono (ig : IgnoreMap) (sp fid Y f' : String)
    (h : coveredB ig Y f' = true) : coveredB (addIgnore ig sp fid) Y f' = true := by
  by_cases hY : Y = sp
  · subst hY
    simp only [coveredB] at h
    cases hlk : lookupA ig Y with
    | none => rw [hlk] at h; simp at h
    | some s =>
      rw [hlk] at h
      have hf : f' ∈ s := by simpa using h
      simp only [addIgnore, coveredB, lookupA_upsertA_self, hlk, Option.getD_some]
      by_cases hm : fid ∈ s
      · simp [hm, hf]
      · simp [hm, hf]
  · simp only [coveredB, addIgnore]
    rw [lookupA_upsertA_ne ig sp Y _ hY]
    exact h

theorem foldl_pres {α β : Type} (P : β → Prop) (f : β → α → β)
    (hf : ∀ b a, P b → P (f b a)) :
    ∀ (l : List α) (b : β), P b → P (l.foldl f b) := by
  intro l
  induction l with
  | nil => intro b hb; simpa using hb
  | cons a l ih =>
    intro b hb
    simpa using ih (f b a) (hf b a hb)

theorem foldlM_except_pres {α σ ε : Type} (step : σ → α → Except ε σ) (R : σ → σ → Prop)
    (hrefl : ∀ s, R s s) (htrans : ∀ a b c, R a b → R b c → R a c)
    (hstep : ∀ s a s', step s a = Except.ok s' → R s s') :
    ∀ (l : List α) (s s' : σ), l.foldlM step s = Except.ok s' → R s s' := by
  intro l
  induction l with
  | nil =>
    intro s s' h
    simp only [List.foldlM_nil] at h
    cases h
    exact hrefl s
  | cons a l ih =>
    intro s s' h
    simp only [List.foldlM_cons] at h
    cases hs1 : step s a with
    | error e =>
      rw [hs1] at h
      rw [show ((Except.error e : Except ε σ) >>= fun s => l.foldlM step s) = Except.error e from
        rfl] at h
      cases h
    | ok s1 =>
      rw [hs1] at h
      rw [show ((Except.ok s1 : Except ε σ) >>= fun s => l.foldlM step s) = l.foldlM step s1 from
        rfl] at h
      exact htrans s s1 s' (hstep s a s1 hs1) (ih s1 s' h)

theorem foldlM_except_all_ok {α σ ε : Type} (step : σ → α → Except ε σ)
    (hstep : ∀ s a, ∃ s', step s a = Except.ok s') :
    ∀ (l : List α) (s : σ), ∃ s', l.foldlM step s = Except.ok s' := by
  intro l
  induction l with
  | nil => intro s; exact ⟨s, rfl⟩
  | cons a l ih =>
    intro s
    obtain ⟨s1, hs1⟩ := hstep s a
    obtain ⟨s', hs'⟩ := ih s1
    refine ⟨s', ?_⟩
    simp only [List.foldlM_cons, hs1]
    rw [show ((Except.ok s1 : Except ε σ) >>= fun s => l.foldlM step s) = l.foldlM step s1 from
      rfl]
    exact hs'
theorem coveredB_processDexEntry_mono (env : Env) (gen : Gen) (formatID : String)
    (format : Option Format) (formatName specieName : String) (specie : Specie)
    (st : ImportState) (entry : String × DexSet) (Y f' : String)
    (h : coveredB st.statsIgnore Y f' = true) :
    coveredB (processDexEntry env gen formatID format formatName specieName specie
      st entry).statsIgnore Y f' = true := by
  simp only [processDexEntry]
  split
  · exact h
  · have h1 : coveredB (addIgnore st.statsIgnore specieName formatID) Y f' = true :=
      coveredB_addIgnore_mono _ _ _ _ _ h
    split
    · split
      · exact foldl_pres (fun s : ImportState => coveredB s.statsIgnore Y f' = true) _
          (fun b a hb => coveredB_addIgnore_mono _ _ _ _ _ hb) _ _ h1
      · exact h1
    · exact h1

theorem coveredB_processDexFormat_mono (env : Env) (gen : Gen) (specieName : String)
    (st : ImportState) (fmtEntry : String × List (String × DexSet)) (Y f' : String)
    (h : coveredB st.statsIgnore Y f' = true) :
    coveredB (processDexFormat env gen specieName st fmtEntry).statsIgnore Y f' = true := by
  simp only [processDexFormat]
  split
  · exact h
  · exact foldl_pres (fun s : ImportState => coveredB s.statsIgnore Y f' = true) _
      (fun b a hb => coveredB_processDexEntry_mono env gen _ _ _ specieName _ b a Y f' hb) _ _ h

theorem coveredB_dexPassFrom_mono (env : Env) (gen : Gen)
    (dexSets : List (String × List (String × List (String × DexSet))))
    (st : ImportState) (Y f' : String)
    (h : coveredB st.statsIgnore Y f' = true) :
    coveredB (dexPassFrom env gen dexSets st).statsIgnore Y f' = true := by
  simp only [dexPassFrom]
  refine foldl_pres (fun s : ImportState => coveredB s.statsIgnore Y f' = true) _ ?_ _ _ h
  intro b a hb
  exact foldl_pres (fun s : ImportState => coveredB s.statsIgnore Y f' = true) _
    (fun b' a' hb' => coveredB_processDexFormat_mono env gen a.1 b' a' Y f' hb') _ _ hb

theorem processDexEntry_store_covered (env : Env) (gen : Gen) (formatID : String)
    (format : Option Format) (formatName specieName : String) (specie : Specie)
    (st : ImportState) (entry : String × DexSet) (Y : String) :
    lookupA (processDexEntry env gen formatID format formatName specieName specie
      st entry).calcSets Y = lookupA st.calcSets Y ∨
    coveredB (processDexEntry env gen formatID format formatName specieName specie
      st entry).statsIgnore Y formatID = true := by
  simp only [processDexEntry]
  split
  · exact Or.inl rfl
  · by_cases hY : Y = specieName
    · subst hY
      have h1 : coveredB (addIgnore st.statsIgnore Y formatID) Y formatID = true :=
        coveredB_addIgnore_self _ _ _
      right
      split
      · split
        · exact foldl_pres (fun s : ImportState => coveredB s.statsIgnore Y formatID = true) _
            (fun b a hb => coveredB_addIgnore_mono _ _ _ _ _ hb) _ _ h1
        · exact h1
      · exact h1
    · have h2 : lookupA (setCalc st.calcSets specieName
          (stripTag formatName ++ " " ++ entry.1)
          (psetToCalcSet gen.num (match format with
            | some f => validatePSet (env.validateSet f.id) f (dexToPset env gen specie entry.2)
            | none => (true, dexToPset env gen specie entry.2)).2)) Y = lookupA st.calcSets Y :=
        lookup_setCalc_ne _ _ _ _ _ hY
      split
      · split
        · refine foldl_pres (fun s : ImportState =>
            lookupA s.calcSets Y = lookupA st.calcSets Y ∨
              coveredB s.statsIgnore Y formatID = true) _ ?_ _ _ (Or.inl h2)
          intro b a hb
          by_cases ha : a = Y
          · subst ha
            exact Or.inr (coveredB_addIgnore_self _ _ _)
          · rcases hb with hb | hb
            · left
              rw [lookup_setCalc_ne _ _ _ _ _ (fun he => ha he.symm)]
              exact hb
            · exact Or.inr (coveredB_addIgnore_mono _ _ _ _ _ hb)
        · exact Or.inl h2
      · exact Or.inl h2

theorem processUsageForme_lookup (env : Env) (ignore : IgnoreMap) (formatID setName : String)
    (calcSet : CalcSet) (item : Option Item) (X : String)
    (hcov : coveredB ignore X formatID = true) :
    ∀ (cs : CalcMap) (forme : String) (cs' : CalcMap),
      processUsageForme env ignore formatID setName calcSet item cs forme = Except.ok cs' →
      lookupA cs' X = lookupA cs X := by
  intro cs forme cs' h
  simp only [processUsageForme] at h
  split at h
  · cases h
    rfl
  · rename_i hnc
    by_cases hf : forme = X
    · subst hf
      exact absurd hcov (by simpa using hnc)
    · split at h
      · exact Except.noConfusion h
      · split at h
        · cases h
          exact lookup_setCalc_ne _ _ _ _ _ (fun he => hf he.symm)
        · cases h
          exact lookup_setCalc_ne _ _ _ _ _ (fun he => hf he.symm)

theorem processUsagePokemon_lookup (env : Env) (gen : Gen) (ignore : IgnoreMap)
    (formatID : String) (format : Option Format) (formatName : String) (threshold : WithTop ℚ)
    (X : String) (hcov : coveredB ignore X formatID = true) :
    ∀ (cs : CalcMap) (entry : String × UsageStats) (cs' : CalcMap),
      processUsagePokemon env gen ignore formatID format formatName threshold cs entry =
        Except.ok cs' →
      lookupA cs' X = lookupA cs X := by
  intro cs entry cs' h
  simp only [processUsagePokemon] at h
  by_cases hs : entry.1 = X
  · rw [hs, if_pos hcov] at h
    cases h
    rfl
  · split at h
    · cases h
      rfl
    · split at h
      · cases h
        rfl
      · split at h
        · cases h
          rfl
        · have hne : X ≠ entry.1 := fun he => hs he.symm
          split at h
          · split at h
            · have hstep := foldlM_except_pres
                (processUsageForme env ignore formatID (stripTag formatName ++ " Showdown Usage")
                  _ _)
                (fun a b => lookupA b X = lookupA a X) (fun s => rfl)
                (fun a b c h1 h2 => h2.trans h1)
                (fun s a s' hs' =>
                  processUsageForme_lookup env ignore formatID _ _ _ X hcov s a s' hs')
                _ _ _ h
              rw [hstep]
              exact lookup_setCalc_ne _ _ _ _ _ hne
            · cases h
              exact lookup_setCalc_ne _ _ _ _ _ hne
          · cases h
            exact lookup_setCalc_ne _ _ _ _ _ hne

theorem statsPassFormat_suppression (env : Env) (gen : Gen) (ignore : IgnoreMap)
    (cs : CalcMap) (formatID : String) (statsData : Option StatsData) (X : String)
    (cs' : CalcMap) (hcov : coveredB ignore X formatID = true)
    (h : statsPassFormat env gen ignore cs formatID statsData = Except.ok cs') :
    lookupA cs' X = lookupA cs X := by
  simp only [statsPassFormat] at h
  split at h
  · cases h
    rfl
  · split at h
    · cases h
      rfl
    · exact foldlM_except_pres _ (fun a b => lookupA b X = lookupA a X) (fun s => rfl)
        (fun a b c h1 h2 => h2.trans h1)
        (fun s a s' hs =>
          processUsagePokemon_lookup env gen ignore formatID _ _ _ X hcov s a s' hs)
        _ _ _ h

/-- Whether an `Except` computation succeeded. -/
def exceptIsOk {ε α : Type} : Except ε α → Bool
  | .ok _ => true
  | .error _ => false

theorem itemLookup_isSome (env : Env) (htotal : ∀ s, (env.moddedItemsGet s).isSome = true)
    (s : String) : (itemLookup env s).isSome = true := by
  simp only [itemLookup]
  cases hg : env.genItemsGet s with
  | some it => rfl
  | none =>
    simp only [Option.orElse]
    exact htotal s

theorem processUsageForme_ok (env : Env) (ignore : IgnoreMap) (formatID setName : String)
    (calcSet : CalcSet) (it : Item) (cs : CalcMap) (forme : String) :
    ∃ cs', processUsageForme env ignore formatID setName calcSet (some it) cs forme =
      Except.ok cs' := by
  simp only [processUsageForme]
  split
  · exact ⟨cs, rfl⟩
  · split
    · exact ⟨_, rfl⟩
    · exact ⟨_, rfl⟩

theorem processUsagePokemon_ok (env : Env) (gen : Gen) (ignore : IgnoreMap)
    (formatID : String) (format : Option Format) (formatName : String) (threshold : WithTop ℚ)
    (htotal : ∀ s, (env.moddedItemsGet s).isSome = true)
    (cs : CalcMap) (entry : String × UsageStats) :
    ∃ cs', processUsagePokemon env gen ignore formatID format formatName threshold cs entry =
      Except.ok cs' := by
  simp only [processUsagePokemon]
  split
  · exact ⟨cs, rfl⟩
  · split
    · exact ⟨cs, rfl⟩
    · split
      · exact ⟨cs, rfl⟩
      · obtain ⟨it, hit⟩ := Option.isSome_iff_exists.mp (itemLookup_isSome env htotal _)
        rw [hit]
        split
        · split
          · exact foldlM_except_all_ok _
              (fun s a => processUsageForme_ok env ignore formatID _ _ it s a) _ _
          · exact ⟨_, rfl⟩
        · exact ⟨_, rfl⟩

theorem statsPassFormat_ok (env : Env) (gen : Gen) (ignore : IgnoreMap) (cs : CalcMap)
    (formatID : String) (statsData : Option StatsData)
    (htotal : ∀ s, (env.moddedItemsGet s).isSome = true) :
    ∃ cs', statsPassFormat env gen ignore cs formatID statsData = Except.ok cs' := by
  simp only [statsPassFormat]
  split
  · exact ⟨cs, rfl⟩
  · split
    · exact ⟨cs, rfl⟩
    · exact foldlM_except_all_ok _
        (fun s a => processUsagePokemon_ok env gen ignore formatID _ _ _ htotal s a) _ _

/-- C1: (i) whenever the curated pass's per-set step changes any identity's
entry list, the step leaves that identity covered for the processed format
— both the directly stored identity and every propagated alternate forme;
(ii) coverage, once recorded, survives the rest of the curated pass; and
(iii) the usage pass for a format leaves every identity covered for that
format completely untouched — it is skipped both as a primary entry and as
a propagation target, so no "Showdown Usage" entry is produced for a
covered (identity, format) pair. -/
theorem c1_coverage_suppression :
    (∀ (env : Env) (gen : Gen) (formatID : String) (format : Option Format)
      (formatName specieName : String) (specie : Specie) (st : ImportState)
      (entry : String × DexSet) (Y : String),
      lookupA (processDexEntry env gen formatID format formatName specieName specie
        st entry).calcSets Y = lookupA st.calcSets Y ∨
      coveredB (processDexEntry env gen formatID format formatName specieName specie
        st entry).statsIgnore Y formatID = true) ∧
    (∀ (env : Env) (gen : Gen) (dexSets : List (String × List (String × List (String × DexSet))))
      (st : ImportState) (Y fid : String),
      coveredB st.statsIgnore Y fid = true →
      coveredB (dexPassFrom env gen dexSets st).statsIgnore Y fid = true) ∧
    (∀ (env : Env) (gen : Gen) (ignore : IgnoreMap) (cs : CalcMap) (formatID : String)
      (statsData : Option StatsData) (X : String) (cs' : CalcMap),
      coveredB ignore X formatID = true →
      statsPassFormat env gen ignore cs formatID statsData = Except.ok cs' →
      lookupA cs' X = lookupA cs X) :=
  ⟨processDexEntry_store_covered,
   coveredB_dexPassFrom_mono,
   fun env gen ignore cs formatID statsData X cs' hcov h =>
     statsPassFormat_suppression env gen ignore cs formatID statsData X cs' hcov h⟩

/-- C10: when the fallback item lookup is total — the `@pkmn/dex` dex
returns an item object for every name, which is what the source's
unguarded `item.megaEvolves` access type-checks against — the usage pass
of a format never dereferences an absent item: it always completes with a
result, for every record including ones with an empty or unrecognized held
item whose species has fixed alternate formes. -/
theorem c10_usage_propagation_safety (env : Env) (gen : Gen) (ignore : IgnoreMap)
    (cs : CalcMap) (formatID : String) (statsData : Option StatsData)
    (htotal : ∀ s, (env.moddedItemsGet s).isSome = true) :
    exceptIsOk (statsPassFormat env gen ignore cs formatID statsData) = true := by
  obtain ⟨cs', h⟩ := statsPassFormat_ok env gen ignore cs formatID statsData htotal
  rw [h]
  rfl

/-- Environment used by the concrete witnesses: every format exists and is
named "[Gen 9] OU", every species has one ability, the per-generation item
lookup always misses and the raw-dex fallback always returns a placeholder
item, and the legality engine accepts everything unchanged. -/
def env0 : Env :=
  { getFormat := fun fid =>
      { id := fid, name := "[Gen 9] OU", «exists» := true, banlist := [], ruleTable := [] }
    getSpecie := fun n => { name := n, abilities := ["Pressure"], isMega := false, baseSpecies := n }
    genItemsGet := fun _ => none
    moddedItemsGet := fun _ => some { name := "" }
    validateSet := fun _ p => (none, p)
    statsFor := fun _ => none
    getHiddenPowerType := fun _ => "Dark"
    typeHPdvs := fun _ => {}
    typeHPivs := fun _ => {} }

/-- A curated CalcSet already stored for Garchomp in the witness. -/
def calcSet0 : CalcSet :=
  { moves := ["Earthquake"], level := 100, ability := "Rough Skin", item := "",
    nature := "Jolly", teraType := none, evs := {}, ivs := {} }

/-- Coverage record for the C1 witness: Garchomp is covered in gen9ou. -/
def c1ignore : IgnoreMap := [("Garchomp", ["gen9ou"])]

/-- Output map before the usage pass in the C1 witness. -/
def c1calc : CalcMap := [("Garchomp", [("OU Strong", calcSet0)])]

/-- Usage bucket of the covered Garchomp (high weighted usage). -/
def uset0 : UsageStats :=
  { usage := ⟨mkRat 1 2⟩, abilities := [("Rough Skin", mkRat 3 4)], items := [],
    spreads := [("Jolly:0/252/0/0/4/252", mkRat 3 4)], moves := [("Earthquake", mkRat 3 4)] }

/-- Usage bucket of the uncovered Dragonite. -/
def usetD : UsageStats :=
  { usage := ⟨mkRat 1 2⟩, abilities := [("Multiscale", mkRat 3 4)], items := [],
    spreads := [("Jolly:0/252/0/0/4/252", mkRat 3 4)], moves := [("Outrage", mkRat 3 4)] }

/-- Statistics page for the C1 witness. -/
def c1stats : StatsData :=
  { battles := 10000, pokemon := [("Garchomp", uset0), ("Dragonite", usetD)] }

example : statsPassFormat env0 ⟨9⟩ c1ignore c1calc ("gen9ou") (some c1stats) =
    statsPassFormat env0 ⟨9⟩ c1ignore c1calc ("gen9ou") (some c1stats) := rfl

/-- Expected Dragonite usage CalcSet in the C1 witness. -/
def dragoCalc : CalcSet :=
  { moves := ["Outrage"], level := 100, ability := "Multiscale", item := "",
    nature := "Jolly", teraType := none,
    evs := { «at» := some 252, sd := some 4, sp := some 252 }, ivs := {} }

/-- Expected output of the witness usage pass. -/
def c1out : CalcMap :=
  [("Garchomp", [("OU Strong", calcSet0)]),
   ("Dragonite", [("OU Showdown Usage", dragoCalc)])]

example : statsPassFormat env0 ⟨9⟩ c1ignore c1calc ("gen9ou") (some c1stats) =
    Except.ok c1out := rfl

/-- C1 (witness): Garchomp is covered for gen9ou; running the usage pass on
a page holding a high-usage Garchomp (skipped) and a Dragonite (stored)
leaves Garchomp's entries exactly as they were. -/
theorem c1_witness :
    coveredB (dexPassFrom env0 ⟨9⟩ [] ⟨[], c1ignore, []⟩).statsIgnore ("Garchomp") ("gen9ou") =
      true ∧
    lookupA c1out ("Garchomp") = lookupA c1calc ("Garchomp") :=
  ⟨c1_coverage_suppression.2.1 env0 ⟨9⟩ [] ⟨[], c1ignore, []⟩ ("Garchomp") ("gen9ou") (by decide),
   c1_coverage_suppression.2.2 env0 ⟨9⟩ c1ignore c1calc ("gen9ou") (some c1stats) ("Garchomp")
     c1out (by decide) rfl⟩

/-- Usage bucket of an Aegislash with an empty held item for the C10
witness. -/
def aegisUset : UsageStats :=
  { usage := ⟨mkRat 1 2⟩, abilities := [("Stance Change", mkRat 3 4)], items := [],
    spreads := [("Quiet:252/0/0/252/4/0", mkRat 3 4)], moves := [("Shadow Ball", mkRat 3 4)] }

/-- Statistics page for the C10 witness. -/
def aegisStats : StatsData :=
  { battles := 10000, pokemon := [("Aegislash", aegisUset)] }

/-- C10 (witness): an Aegislash usage record with an empty (unrecognized)
held item propagates to its three fixed formes and the pass completes
without the undefined-item error. -/
theorem c10_witness :
    exceptIsOk (statsPassFormat env0 ⟨9⟩ [] [] ("gen9ou") (some aegisStats)) = true :=
  c10_usage_propagation_safety env0 ⟨9⟩ [] [] ("gen9ou") (some aegisStats) (fun _ => rfl)
